import Mathlib

/-!
# Verification of the download job lifecycle manager

Shallow embedding of `app/services/downloader.py` (class `JobManager` and the
`Job` dataclass) together with the `max_videos` normalization performed by the
HTTP handlers in `app/main.py`.

The external `yt_dlp` extractor is modelled as an oracle (`Extractor`): the
outcome of the primary discovery call, the outcome of each fallback
configuration, and the outcome of each per-item download attempt are inputs.
Time (`time.time()`) is modelled by a single timestamp parameter `t`; sleeps
and download attempts are recorded in an event trace.  Cancellation by a
concurrent caller is modelled by the parameter `cancelAt`: the full
`cancel_job` mutation is applied at the checkpoint of the given (1-based)
loop iteration, which is where the code observes the cancel event.
-/

namespace TikTokDownloader

/-! ## String helpers (Python `str.lower` and `in` substring tests) -/

/-- Substring test on character lists: `needle` occurs somewhere in the list. -/
def isSubChars (needle : List Char) : List Char → Bool
  | [] => needle.isEmpty
  | c :: rest => needle.isPrefixOf (c :: rest) || isSubChars needle rest

/-- Characters of `s` lower-cased, as Python `s.lower()`. -/
def lowerChars (s : String) : List Char := s.data.map Char.toLower

/-- Python `pat in s.lower()` for an already lower-case `pat`. -/
def containsLower (s pat : String) : Bool := isSubChars pat.data (lowerChars s)

def rateNeedle : String := "rate"
def limitNeedle : String := "limit"
def tryAgainNeedle : String := "try again later"

/-- Rate-limit classification of a download error message
(`downloader.py` line 375). -/
def isRateLimitMsg (msg : String) : Bool :=
  containsLower msg rateNeedle || containsLower msg limitNeedle ||
    containsLower msg tryAgainNeedle

def youtubeDomain : String := "youtube.com"
def youtubeShortDomain : String := "youtu.be"

/-- URL classification used for the YouTube-specific option set, fallback
chain, diagnostic message and inter-item delay
(`"youtube.com" in url.lower() or "youtu.be" in url.lower()`). -/
def isYouTubeUrl (url : String) : Bool :=
  containsLower url youtubeDomain || containsLower url youtubeShortDomain

/-! ## Data model -/

/-- Job status strings: `queued|running|completed|cancelled|failed`. -/
inductive Status where
  | queued
  | running
  | completed
  | cancelled
  | failed
  deriving DecidableEq, Repr

/-- The `Job` dataclass of `downloader.py`.  `output_root` is kept as a plain
string (it is a `Path` in the source); `progress` (a Python float that only
ever holds exact quotients `idx / total`) is modelled as a rational. -/
structure Job where
  id : String
  profile_url : String
  output_root : String
  max_videos : Option Int := none
  proxy : Option String := none
  status : Status := Status.queued
  progress : ℚ := 0
  total : Option Nat := none
  downloaded : Nat := 0
  failed : Nat := 0
  message : String := ""
  created_at : Nat := 0
  updated_at : Nat := 0
  cancel_event : Bool := false
  deriving DecidableEq, Repr

/-- One discovered item descriptor: the two fields read by the per-item loop
(`entry.get("webpage_url")`, `entry.get("url")`). -/
structure Entry where
  webpage_url : Option String := none
  url : Option String := none
  deriving DecidableEq, Repr

/-- Discovery result: either a single video info dict, or a dict with an
`"entries"` list (whose elements may be falsy, modelled by `none`). -/
inductive Info where
  | single (e : Entry)
  | playlist (entries : List (Option Entry))
  deriving DecidableEq, Repr

/-- Observable actions of the runner: backoff sleeps (`time.sleep(wait_time)`),
download attempts (`ydl.download([vid_url])`, tagged with the 1-based item
index and 0-based attempt number), and the fixed 2-second inter-item delay
for YouTube URLs. -/
inductive Event where
  | sleep (secs : Nat)
  | attempt (item : Nat) (att : Nat)
  | interSleep (secs : Nat)
  deriving DecidableEq, Repr

/-- Backoff sleeps recorded in a trace. -/
def sleepsOf : List Event → List Nat
  | [] => []
  | Event.sleep s :: rest => s :: sleepsOf rest
  | _ :: rest => sleepsOf rest

/-- Download attempts `(item, attempt)` recorded in a trace. -/
def attemptsOf : List Event → List (Nat × Nat)
  | [] => []
  | Event.attempt i a :: rest => (i, a) :: attemptsOf rest
  | _ :: rest => attemptsOf rest

/-- Result of one download attempt of the external extractor. -/
inductive FetchResult where
  | success (filename : String)
  | failure (msg : String)
  deriving DecidableEq, Repr

/-! ## Constants and message strings from the source -/

def max_retries : Nat := 3
def retry_delay : Nat := 5

/-- `wait_time = retry_delay * (3 ** attempt)`. -/
def waitTime (attempt : Nat) : Nat := retry_delay * 3 ^ attempt

def retryNotice (attempt : Nat) : String :=
  "Rate limit detectado, reintentando en " ++ toString (waitTime attempt) ++
    "s... (" ++ toString (attempt + 1) ++ "/" ++ toString max_retries ++ ")"

def rateBlockedMsg : String :=
  "Video bloqueado por rate limit después de " ++ toString max_retries ++ " intentos"

def youtubeFailMsg : String :=
  "⚠️ YouTube ha actualizado su sistema. Intenta actualizar yt-dlp con: pip install -U yt-dlp"

def genericFailMsg : String :=
  "No se pudo acceder al contenido. Posibles causas: video privado, restringido por región, eliminado, o URL incorrecta."

def fallbackNotice (i : Nat) : String :=
  "Reintentando con método alternativo " ++ toString i ++ "/3..."

def doneMsg (d f : Nat) : String :=
  "Done. Downloaded=" ++ toString d ++ ", Failed=" ++ toString f

def cancelledRaiseMsg : String := "Cancelled"

def downloadedNote (fn : String) : String := "Downloaded " ++ fn

/-! ## `cancel_job` -/

/-- The mutation performed by `JobManager.cancel_job` on an existing job:
`job._cancel_event.set(); job.status = "cancelled"; job.updated_at = now`. -/
def applyCancel (t : Nat) (job : Job) : Job :=
  { job with cancel_event := true, status := Status.cancelled, updated_at := t }

/-- `JobManager.cancel_job`, given the result of the store lookup:
returns `False` for an absent job, otherwise applies the cancel mutation
unconditionally and returns `True`. -/
def cancel_job (jOpt : Option Job) (t : Nat) : Option Job × Bool :=
  match jOpt with
  | none => (none, false)
  | some job => (some (applyCancel t job), true)

/-! ## Per-item download with retry/backoff -/

/-- Message/timestamp mutation done before a retried attempt (`attempt > 0`). -/
def backoffJob (t attempt : Nat) (job : Job) : Job :=
  if 0 < attempt then { job with message := retryNotice attempt, updated_at := t }
  else job

/-- The `time.sleep(wait_time)` before a retried attempt. -/
def backoffEvents (attempt : Nat) : List Event :=
  if 0 < attempt then [Event.sleep (waitTime attempt)] else []

/-- Body of `for attempt in range(max_retries)` (lines 360-390).  `fuel` is the
number of loop iterations left (`max_retries - attempt` at the entry point).
On success the progress hook's `finished` branch fires (`downloaded += 1`,
message, timestamp); a rate-limit failure before the last attempt continues
the loop; a rate-limit failure on the last attempt increments `failed` and
records the blocked message (the loop then exhausts); any other failure
increments `failed` and breaks. -/
def attemptLoopAux (f : Nat → FetchResult) (idx t : Nat) :
    Nat → Nat → Job → Job × List Event
  | 0, _, job => (job, [])
  | fuel + 1, attempt, job =>
    let job := backoffJob t attempt job
    let evs := backoffEvents attempt ++ [Event.attempt idx attempt]
    match f attempt with
    | FetchResult.success fn =>
      ({ job with downloaded := job.downloaded + 1,
                  message := downloadedNote fn, updated_at := t }, evs)
    | FetchResult.failure msg =>
      if isRateLimitMsg msg then
        if attempt < max_retries - 1 then
          let r := attemptLoopAux f idx t fuel (attempt + 1) job
          (r.1, evs ++ r.2)
        else
          let job := { job with failed := job.failed + 1, message := rateBlockedMsg }
          let r := attemptLoopAux f idx t fuel (attempt + 1) job
          (r.1, evs ++ r.2)
      else
        ({ job with failed := job.failed + 1 }, evs)

/-- The retry loop entered with `attempt = 0` and `max_retries` iterations. -/
def attemptLoop (f : Nat → FetchResult) (idx t : Nat) (job : Job) : Job × List Event :=
  attemptLoopAux f idx t max_retries 0 job

/-! ## The per-item body and item loop of `run_job` -/

/-- Python truthiness of an optional string (`None` and `""` are falsy),
as used by `entry.get("webpage_url") or entry.get("url")`. -/
def truthyStr : Option String → Option String
  | none => none
  | some s => if s = "" then none else some s

/-- `vid_url = entry.get("webpage_url") or entry.get("url")`. -/
def resolveUrl (e : Entry) : Option String :=
  match truthyStr e.webpage_url with
  | some u => some u
  | none => truthyStr e.url

/-- `job.progress = idx / job.total if job.total else 0.0`
(`job.total` is falsy when `None` or `0`). -/
def progressValue (total : Option Nat) (idx : Nat) : ℚ :=
  match total with
  | none => 0
  | some n => if n = 0 then 0 else (idx : ℚ) / (n : ℚ)

/-- The fixed 2-second delay between items for YouTube URLs (lines 393-394). -/
def interItemEvents (isYT : Bool) : List Event :=
  if isYT then [Event.interSleep 2] else []

/-- Body of one iteration of the entry loop, after the cancel checkpoint:
resolve the URL (no URL: `failed += 1; continue`, which skips the progress
update), otherwise run the retry loop, apply the inter-item cooldown, and
update `progress` and `updated_at` (lines 351-397). -/
def processItem (f : Nat → Nat → FetchResult) (isYT : Bool) (t idx : Nat)
    (e : Entry) (job : Job) : Job × List Event :=
  match resolveUrl e with
  | none => ({ job with failed := job.failed + 1 }, [])
  | some _ =>
    let r := attemptLoop (f idx) idx t job
    ({ r.1 with progress := progressValue r.1.total idx, updated_at := t },
      r.2 ++ interItemEvents isYT)

/-- `for idx, entry in enumerate(entries, start=1)` (lines 348-397).
`cancelAt = some k` applies the concurrent `cancel_job` mutation right before
the checkpoint of iteration `k`; an observed cancel raises
`DownloadError("Cancelled")`, modelled by the `true` flag of the result. -/
def itemLoop (f : Nat → Nat → FetchResult) (isYT : Bool) (cancelAt : Option Nat)
    (t : Nat) : List Entry → Nat → Job → Job × List Event × Bool
  | [], _, job => (job, [], false)
  | e :: rest, idx, job =>
    let job := if cancelAt = some idx then applyCancel t job else job
    if job.cancel_event then (job, [], true)
    else
      let p := processItem f isYT t idx e job
      let r := itemLoop f isYT cancelAt t rest (idx + 1) p.1
      (r.1, p.2 ++ r.2.1, r.2.2)

/-! ## Discovery phase -/

/-- The external extraction/download capability as an oracle: the outcome of
the primary `extract_info` call, the outcome of trying the `i`-th fallback
configuration (1-3 for the YouTube chain, 0 for the simple fallback of other
platforms), and the result of each `(item, attempt)` download. -/
structure Extractor where
  primary : Option Info
  fallbackResult : Nat → Option Info
  fetch : Nat → Nat → FetchResult

/-- The YouTube fallback loop (lines 281-297): before trying fallback `i`, set
`job.message` to the retry notice; stop at the first config returning info. -/
def tryFallbackList (fallbackResult : Nat → Option Info) (t : Nat) :
    List Nat → Job → Job × Option Info
  | [], job => (job, none)
  | i :: rest, job =>
    let job := { job with message := fallbackNotice i, updated_at := t }
    match fallbackResult i with
    | some info => (job, some info)
    | none => tryFallbackList fallbackResult t rest job

/-- Discovery with fallbacks (lines 228-317): try the primary profile; if it
fails, YouTube URLs walk the 3-element fallback chain, other platforms try a
single simple fallback config. -/
def extractInfo (o : Extractor) (isYT : Bool) (t : Nat) (job : Job) :
    Job × Option Info :=
  match o.primary with
  | some info => (job, some info)
  | none =>
    if isYT then tryFallbackList o.fallbackResult t [1, 2, 3] job
    else (job, o.fallbackResult 0)

/-- Entry normalization (lines 333-339): a dict with an `"entries"` list keeps
its truthy elements, anything else is a single video. -/
def normalizeEntries : Info → List Entry
  | Info.single e => [e]
  | Info.playlist l => l.filterMap id

/-- Python slice `l[:j]`: a nonnegative bound keeps the first `j` elements, a
negative bound counts from the end (`l[:j] = l[:max(0, len(l)+j)]`). -/
def pySliceTo {α : Type} (l : List α) (j : Int) : List α :=
  if 0 ≤ j then l.take j.toNat else l.take ((l.length : Int) + j).toNat

/-- `if job.max_videos: entries = entries[:job.max_videos]` (lines 341-342):
a `None` or `0` cap is falsy and skips truncation. -/
def applyMaxVideos {α : Type} (mv : Option Int) (l : List α) : List α :=
  match mv with
  | none => l
  | some n => if n = 0 then l else pySliceTo l n

/-- The entry list the loop runs over, for a job and a discovery result. -/
def discoveredEntries (j : Job) (info : Info) : List Entry :=
  applyMaxVideos j.max_videos (normalizeEntries info)

/-! ## `run_job` -/

/-- Lines 399-408: the `DownloadError("Cancelled")` raised at a checkpoint is
caught at the outermost level and marks the job Failed unless a concurrent
cancel already made it Cancelled; a normal loop end marks it Completed with
the summary message, again unless already Cancelled. -/
def finalizeJob (t : Nat) (aborted : Bool) (jf : Job) : Job :=
  if aborted then
    if jf.status = Status.cancelled then jf
    else { jf with status := Status.failed, message := cancelledRaiseMsg,
                   updated_at := t }
  else
    if jf.status = Status.cancelled then jf
    else { jf with status := Status.completed,
                   message := doneMsg jf.downloaded jf.failed, updated_at := t }

/-- `JobManager.run_job` (lines 89-408), given the store lookup result, the
extractor oracle, the cancellation schedule and the timestamp.  Returns the
final job record and the event trace. -/
def run_job (o : Extractor) (cancelAt : Option Nat) (t : Nat)
    (jOpt : Option Job) : Option Job × List Event :=
  match jOpt with
  | none => (none, [])
  | some job =>
    if job.status = Status.cancelled then (some job, [])
    else
      let isYT := isYouTubeUrl job.profile_url
      let job := { job with status := Status.running, updated_at := t }
      let ex := extractInfo o isYT t job
      match ex.2 with
      | none =>
        if isYT then
          (some { ex.1 with status := Status.failed, message := youtubeFailMsg,
                            updated_at := t }, [])
        else
          (some { ex.1 with status := Status.failed, message := genericFailMsg,
                            updated_at := t }, [])
      | some info =>
        let entries := discoveredEntries ex.1 info
        let job := { ex.1 with total := some entries.length, progress := 0,
                               updated_at := t }
        let r := itemLoop o.fetch isYT cancelAt t entries 1 job
        (some (finalizeJob t r.2.2 r.1), r.2.1)

/-! ## `max_videos` normalization in the HTTP handlers (`app/main.py`) -/

/-- Digits-only string to a number (`int` on a plain digit string). -/
def digitsToNat (cs : List Char) : Option Nat :=
  if cs.isEmpty then none
  else if cs.all Char.isDigit then
    some (cs.foldl (fun n c => n * 10 + (c.toNat - 48)) 0)
  else none

/-- Python `int(s)` on a stripped string: optional sign then digits, `None`
(a `ValueError`) otherwise. -/
def pyToInt (s : String) : Option Int :=
  match s.data with
  | '+' :: rest => (digitsToNat rest).map fun n => (n : Int)
  | '-' :: rest => (digitsToNat rest).map fun n => -(n : Int)
  | cs => (digitsToNat cs).map fun n => (n : Int)

/-- Python `str.strip()`: drop leading and trailing whitespace. -/
def pyStrip (s : String) : String :=
  String.mk
    (((s.data.dropWhile Char.isWhitespace).reverse.dropWhile
        Char.isWhitespace).reverse)

/-- The `max_videos` form-field normalization of `create_job` in `main.py`
(lines 36-44): strip, treat the empty string as absent, parse with `int`,
and swallow a `ValueError` into `None`.  Any parsed integer, zero and
negative values included, is forwarded unchanged. -/
def normalizeMaxVideos (max_videos : Option String) : Option Int :=
  match max_videos with
  | none => none
  | some v =>
    let s := pyStrip v
    if s = "" then none else pyToInt s

/-! ## Concrete instances used to exercise the model -/

def idStr : String := "job-1"
def urlTik : String := "https://www.tiktok.com/@user"
def urlYT : String := "https://www.youtube.com/watch?v=abc"
def vidUrl1 : String := "https://www.tiktok.com/@user/video/1"
def fnA : String := "video1.mp4"
def rateMsgEx : String := "HTTP Error 429: rate limit exceeded"
def permMsgEx : String := "Video unavailable"
def outRootStr : String := "downloads"
def zeroPad : String := " 0 "
def negFiveStr : String := "-5"

def jobTik : Job := { id := idStr, profile_url := urlTik, output_root := outRootStr }
def jobYT : Job := { id := idStr, profile_url := urlYT, output_root := outRootStr }
def jobDone : Job := { jobTik with status := Status.completed }
def jobMv3 : Job := { jobTik with max_videos := some 3 }
def jobTot2 : Job := { jobTik with total := some 2 }
def entryOk : Entry := { webpage_url := some vidUrl1 }
def entryNoUrl : Entry := {}

def fiveEntries : List Entry := List.replicate 5 entryOk
def tenSome : List (Option Entry) := List.replicate 10 (some entryOk)

def exNone : Extractor :=
  { primary := none, fallbackResult := fun _ => none,
    fetch := fun _ _ => FetchResult.success fnA }
def exRate : Extractor :=
  { primary := some (Info.playlist [some entryOk]),
    fallbackResult := fun _ => none,
    fetch := fun _ _ => FetchResult.failure rateMsgEx }
def exTwo : Extractor :=
  { primary := some (Info.playlist [some entryOk, some entryOk]),
    fallbackResult := fun _ => none,
    fetch := fun _ _ => FetchResult.success fnA }
def exTen : Extractor :=
  { primary := some (Info.playlist tenSome),
    fallbackResult := fun _ => none,
    fetch := fun _ _ => FetchResult.success fnA }

/-! ## Frame predicates -/

/-- The immutable request parameters of a job. -/
def paramsEq (a b : Job) : Prop :=
  a.id = b.id ∧ a.profile_url = b.profile_url ∧ a.output_root = b.output_root ∧
  a.max_videos = b.max_videos ∧ a.proxy = b.proxy ∧ a.created_at = b.created_at

/-- Request parameters plus the cancel flag, status and total. -/
def frameEq (a b : Job) : Prop :=
  paramsEq a b ∧ a.cancel_event = b.cancel_event ∧ a.status = b.status ∧
    a.total = b.total

/-- `frameEq` plus progress. -/
def coreEq (a b : Job) : Prop := frameEq a b ∧ a.progress = b.progress

lemma paramsEq_refl (a : Job) : paramsEq a a := ⟨rfl, rfl, rfl, rfl, rfl, rfl⟩

lemma paramsEq_trans {a b c : Job} (h1 : paramsEq a b) (h2 : paramsEq b c) :
    paramsEq a c :=
  ⟨h1.1.trans h2.1, h1.2.1.trans h2.2.1, h1.2.2.1.trans h2.2.2.1,
   h1.2.2.2.1.trans h2.2.2.2.1, h1.2.2.2.2.1.trans h2.2.2.2.2.1,
   h1.2.2.2.2.2.trans h2.2.2.2.2.2⟩

lemma frameEq_refl (a : Job) : frameEq a a := ⟨paramsEq_refl a, rfl, rfl, rfl⟩

lemma frameEq_trans {a b c : Job} (h1 : frameEq a b) (h2 : frameEq b c) :
    frameEq a c :=
  ⟨paramsEq_trans h1.1 h2.1, h1.2.1.trans h2.2.1, h1.2.2.1.trans h2.2.2.1,
   h1.2.2.2.trans h2.2.2.2⟩

lemma coreEq_refl (a : Job) : coreEq a a := ⟨frameEq_refl a, rfl⟩

lemma coreEq_trans {a b c : Job} (h1 : coreEq a b) (h2 : coreEq b c) :
    coreEq a c :=
  ⟨frameEq_trans h1.1 h2.1, h1.2.trans h2.2⟩

/-! ## Lemmas on the retry loop -/

lemma backoffJob_coreEq (t a : Nat) (job : Job) :
    coreEq (backoffJob t a job) job := by
  unfold backoffJob
  split
  · exact ⟨⟨⟨rfl, rfl, rfl, rfl, rfl, rfl⟩, rfl, rfl, rfl⟩, rfl⟩
  · exact coreEq_refl _

lemma backoffJob_counters (t a : Nat) (job : Job) :
    (backoffJob t a job).downloaded = job.downloaded ∧
      (backoffJob t a job).failed = job.failed := by
  unfold backoffJob
  split
  · exact ⟨rfl, rfl⟩
  · exact ⟨rfl, rfl⟩

lemma attemptLoopAux_coreEq (f : Nat → FetchResult) (idx t : Nat) :
    ∀ (fuel attempt : Nat) (job : Job),
      coreEq (attemptLoopAux f idx t fuel attempt job).1 job := by
  intro fuel
  induction fuel with
  | zero => intro a job; exact coreEq_refl _
  | succ n ih =>
    intro a job
    simp only [attemptLoopAux]
    cases hf : f a with
    | success fn =>
      exact coreEq_trans
        ⟨⟨⟨rfl, rfl, rfl, rfl, rfl, rfl⟩, rfl, rfl, rfl⟩, rfl⟩
        (backoffJob_coreEq t a job)
    | failure m =>
      by_cases hr : isRateLimitMsg m = true
      · simp only [hr, if_true]
        by_cases hlt : a < max_retries - 1
        · simp only [if_pos hlt]
          exact coreEq_trans (ih (a + 1) (backoffJob t a job))
            (backoffJob_coreEq t a job)
        · simp only [if_neg hlt]
          refine coreEq_trans (ih (a + 1) _) ?_
          exact coreEq_trans
            ⟨⟨⟨rfl, rfl, rfl, rfl, rfl, rfl⟩, rfl, rfl, rfl⟩, rfl⟩
            (backoffJob_coreEq t a job)
      · simp only [hr, if_false]
        exact coreEq_trans
          ⟨⟨⟨rfl, rfl, rfl, rfl, rfl, rfl⟩, rfl, rfl, rfl⟩, rfl⟩
          (backoffJob_coreEq t a job)

/-- Any full pass of the retry loop charges exactly one unit to
`downloaded + failed`. -/
lemma attemptLoopAux_sum (f : Nat → FetchResult) (idx t : Nat) :
    ∀ (fuel attempt : Nat) (job : Job),
      fuel + attempt = max_retries → 0 < fuel →
      (attemptLoopAux f idx t fuel attempt job).1.downloaded +
          (attemptLoopAux f idx t fuel attempt job).1.failed
        = job.downloaded + job.failed + 1 := by
  intro fuel
  induction fuel with
  | zero => intro a job h h0; omega
  | succ n ih =>
    intro a job h _
    simp only [attemptLoopAux]
    obtain ⟨hbd, hbf⟩ := backoffJob_counters t a job
    cases hf : f a with
    | success fn => simp only; omega
    | failure m =>
      by_cases hr : isRateLimitMsg m = true
      · simp only [hr, if_true]
        by_cases hlt : a < max_retries - 1
        · simp only [if_pos hlt]
          rcases Nat.eq_zero_or_pos n with hn | hn
          · subst hn
            simp only [max_retries] at h hlt
            omega
          · rw [ih (a + 1) (backoffJob t a job) (by omega) hn]
            omega
        · simp only [if_neg hlt]
          have hn : n = 0 := by
            simp only [max_retries] at h hlt
            omega
          subst hn
          simp only [attemptLoopAux]
          omega
      · simp only [if_neg hr]
        omega

/-- Every download-attempt event of the retry loop is tagged with the item
index the loop was entered with. -/
lemma attemptLoopAux_events (f : Nat → FetchResult) (idx t : Nat) :
    ∀ (fuel attempt : Nat) (job : Job) (i a : Nat),
      Event.attempt i a ∈ (attemptLoopAux f idx t fuel attempt job).2 →
      i = idx := by
  intro fuel
  induction fuel with
  | zero => intro a job i b h; exact absurd h (List.not_mem_nil _)
  | succ n ih =>
    intro a job i b h
    simp only [attemptLoopAux] at h
    have hback : ∀ s i2 b2, Event.attempt i2 b2 ∈ backoffEvents s → i2 = idx := by
      intro s i2 b2 hmem
      unfold backoffEvents at hmem
      split at hmem <;> simp at hmem
    cases hf : f a with
    | success fn =>
      simp only [hf] at h
      simp only [List.mem_append, List.mem_singleton] at h
      rcases h with h | h
      · exact hback a i b h
      · cases h; rfl
    | failure m =>
      simp only [hf] at h
      by_cases hr : isRateLimitMsg m = true
      · simp only [hr, if_true] at h
        by_cases hlt : a < max_retries - 1
        · simp only [if_pos hlt] at h
          simp only [List.append_assoc, List.mem_append, List.mem_singleton] at h
          rcases h with h | h | h
          · exact hback a i b h
          · cases h; rfl
          · exact ih (a + 1) _ i b h
        · simp only [if_neg hlt] at h
          simp only [List.append_assoc, List.mem_append, List.mem_singleton] at h
          rcases h with h | h | h
          · exact hback a i b h
          · cases h; rfl
          · exact ih (a + 1) _ i b h
      · rw [if_neg hr] at h
        simp only [List.mem_append, List.mem_singleton] at h
        rcases h with h | h
        · exact hback a i b h
        · cases h; rfl

lemma attemptLoop_coreEq (f : Nat → FetchResult) (idx t : Nat) (job : Job) :
    coreEq (attemptLoop f idx t job).1 job :=
  attemptLoopAux_coreEq f idx t max_retries 0 job

lemma attemptLoop_sum (f : Nat → FetchResult) (idx t : Nat) (job : Job) :
    (attemptLoop f idx t job).1.downloaded + (attemptLoop f idx t job).1.failed
      = job.downloaded + job.failed + 1 :=
  attemptLoopAux_sum f idx t max_retries 0 job rfl (by simp [max_retries])

lemma attemptLoop_events (f : Nat → FetchResult) (idx t : Nat) (job : Job)
    (i a : Nat) (h : Event.attempt i a ∈ (attemptLoop f idx t job).2) : i = idx :=
  attemptLoopAux_events f idx t max_retries 0 job i a h

/-! ## Lemmas on the per-item body -/

lemma processItem_frameEq (f : Nat → Nat → FetchResult) (isYT : Bool)
    (t idx : Nat) (e : Entry) (job : Job) :
    frameEq (processItem f isYT t idx e job).1 job := by
  unfold processItem
  cases resolveUrl e with
  | none => exact ⟨⟨rfl, rfl, rfl, rfl, rfl, rfl⟩, rfl, rfl, rfl⟩
  | some u =>
    refine frameEq_trans ?_ (attemptLoop_coreEq (f idx) idx t job).1
    exact ⟨⟨rfl, rfl, rfl, rfl, rfl, rfl⟩, rfl, rfl, rfl⟩

lemma processItem_sum (f : Nat → Nat → FetchResult) (isYT : Bool)
    (t idx : Nat) (e : Entry) (job : Job) :
    (processItem f isYT t idx e job).1.downloaded +
        (processItem f isYT t idx e job).1.failed
      = job.downloaded + job.failed + 1 := by
  unfold processItem
  cases resolveUrl e with
  | none => simp only; omega
  | some u =>
    have := attemptLoop_sum (f idx) idx t job
    simp only
    omega

/-- The per-item body either sets `progress` to `idx / total` (item with a
resolvable URL) or leaves it untouched (the `continue` for URL-less items). -/
lemma processItem_progress (f : Nat → Nat → FetchResult) (isYT : Bool)
    (t idx : Nat) (e : Entry) (job : Job) :
    (resolveUrl e = none ∧
        (processItem f isYT t idx e job).1.progress = job.progress) ∨
    ((∃ u, resolveUrl e = some u) ∧
        (processItem f isYT t idx e job).1.progress
          = progressValue job.total idx) := by
  unfold processItem
  cases hu : resolveUrl e with
  | none => exact Or.inl ⟨rfl, rfl⟩
  | some u =>
    refine Or.inr ⟨⟨u, rfl⟩, ?_⟩
    have ht := (attemptLoop_coreEq (f idx) idx t job).1.2.2.2
    simp only [ht]

lemma processItem_events (f : Nat → Nat → FetchResult) (isYT : Bool)
    (t idx : Nat) (e : Entry) (job : Job) (i a : Nat)
    (h : Event.attempt i a ∈ (processItem f isYT t idx e job).2) : i = idx := by
  unfold processItem at h
  cases hu : resolveUrl e with
  | none => rw [hu] at h; exact absurd h (List.not_mem_nil _)
  | some u =>
    rw [hu] at h
    simp only [List.mem_append] at h
    rcases h with h | h
    · exact attemptLoop_events (f idx) idx t job i a h
    · unfold interItemEvents at h
      split at h <;> simp at h

/-! ## Lemmas on the discovery phase -/

lemma tryFallbackList_inv (fr : Nat → Option Info) (t : Nat) :
    ∀ (l : List Nat) (job : Job),
      coreEq (tryFallbackList fr t l job).1 job ∧
      (tryFallbackList fr t l job).1.downloaded = job.downloaded ∧
      (tryFallbackList fr t l job).1.failed = job.failed := by
  intro l
  induction l with
  | nil => intro job; exact ⟨coreEq_refl _, rfl, rfl⟩
  | cons i rest ih =>
    intro job
    simp only [tryFallbackList]
    cases fr i with
    | some info =>
      exact ⟨⟨⟨⟨rfl, rfl, rfl, rfl, rfl, rfl⟩, rfl, rfl, rfl⟩, rfl⟩, rfl, rfl⟩
    | none =>
      obtain ⟨hc, hd, hf⟩ := ih { job with message := fallbackNotice i, updated_at := t }
      refine ⟨coreEq_trans hc ?_, hd.trans rfl, hf.trans rfl⟩
      exact ⟨⟨⟨rfl, rfl, rfl, rfl, rfl, rfl⟩, rfl, rfl, rfl⟩, rfl⟩

lemma tryFallbackList_none (fr : Nat → Option Info) (t : Nat)
    (hfb : ∀ i, fr i = none) :
    ∀ (l : List Nat) (job : Job), (tryFallbackList fr t l job).2 = none := by
  intro l
  induction l with
  | nil => intro job; rfl
  | cons i rest ih =>
    intro job
    simp only [tryFallbackList, hfb i]
    exact ih _

lemma extractInfo_inv (o : Extractor) (isYT : Bool) (t : Nat) (job : Job) :
    coreEq (extractInfo o isYT t job).1 job ∧
    (extractInfo o isYT t job).1.downloaded = job.downloaded ∧
    (extractInfo o isYT t job).1.failed = job.failed := by
  unfold extractInfo
  cases o.primary with
  | some info => exact ⟨coreEq_refl _, rfl, rfl⟩
  | none =>
    cases isYT with
    | true => simpa using tryFallbackList_inv o.fallbackResult t [1, 2, 3] job
    | false => exact ⟨coreEq_refl _, rfl, rfl⟩

lemma extractInfo_none (o : Extractor) (isYT : Bool) (t : Nat) (job : Job)
    (hp : o.primary = none) (hfb : ∀ i, o.fallbackResult i = none) :
    (extractInfo o isYT t job).2 = none := by
  unfold extractInfo
  rw [hp]
  cases isYT with
  | true => simpa using tryFallbackList_none o.fallbackResult t hfb [1, 2, 3] job
  | false => simpa using hfb 0

lemma extractInfo_primary (o : Extractor) (isYT : Bool) (t : Nat) (job : Job)
    (info : Info) (hp : o.primary = some info) :
    extractInfo o isYT t job = (job, some info) := by
  unfold extractInfo
  rw [hp]

/-! ## Lemmas on the item loop -/

/-- The item loop preserves the request parameters and `total`, and charges at
most one `downloaded`/`failed` unit per entry. -/
lemma itemLoop_inv (f : Nat → Nat → FetchResult) (isYT : Bool)
    (c : Option Nat) (t : Nat) :
    ∀ (entries : List Entry) (idx : Nat) (job : Job),
      paramsEq (itemLoop f isYT c t entries idx job).1 job ∧
      (itemLoop f isYT c t entries idx job).1.total = job.total ∧
      (itemLoop f isYT c t entries idx job).1.downloaded +
          (itemLoop f isYT c t entries idx job).1.failed
        ≤ job.downloaded + job.failed + entries.length := by
  intro entries
  induction entries with
  | nil => intro idx job; exact ⟨paramsEq_refl _, rfl, Nat.le_add_right _ _⟩
  | cons e rest ih =>
    intro idx job
    simp only [itemLoop]
    by_cases hc : c = some idx
    · simp only [if_pos hc]
      exact ⟨⟨rfl, rfl, rfl, rfl, rfl, rfl⟩, rfl, Nat.le_add_right _ _⟩
    · simp only [if_neg hc]
      cases hev : job.cancel_event with
      | true =>
        exact ⟨paramsEq_refl _, rfl, Nat.le_add_right _ _⟩
      | false =>
        simp only [Bool.false_eq_true, if_false]
        obtain ⟨hp1, hp2, hp3⟩ :=
          ih (idx + 1) (processItem f isYT t idx e job).1
        have hq := processItem_frameEq f isYT t idx e job
        have hqs := processItem_sum f isYT t idx e job
        refine ⟨paramsEq_trans hp1 hq.1, hp2.trans hq.2.2.2, ?_⟩
        simp only [List.length_cons]
        omega

/-- Attempt events of the item loop carry indices in
`[idx, idx + entries.length)`. -/
lemma itemLoop_events (f : Nat → Nat → FetchResult) (isYT : Bool)
    (c : Option Nat) (t : Nat) :
    ∀ (entries : List Entry) (idx : Nat) (job : Job) (i a : Nat),
      Event.attempt i a ∈ (itemLoop f isYT c t entries idx job).2.1 →
      idx ≤ i ∧ i < idx + entries.length := by
  intro entries
  induction entries with
  | nil => intro idx job i a h; exact absurd h (List.not_mem_nil _)
  | cons e rest ih =>
    intro idx job i a h
    simp only [itemLoop] at h
    by_cases hc : c = some idx
    · simp only [if_pos hc] at h
      cases hev : (applyCancel t job).cancel_event with
      | true =>
        rw [hev] at h
        simp only [if_pos rfl] at h
        exact absurd h (List.not_mem_nil _)
      | false => simp [applyCancel] at hev
    · simp only [if_neg hc] at h
      cases hev : job.cancel_event with
      | true =>
        rw [hev] at h
        simp only [if_pos rfl] at h
        exact absurd h (List.not_mem_nil _)
      | false =>
        rw [hev] at h
        simp only [Bool.false_eq_true, if_false, List.mem_append] at h
        simp only [List.length_cons]
        rcases h with h | h
        · have := processItem_events f isYT t idx e job i a h
          omega
        · have := ih (idx + 1) (processItem f isYT t idx e job).1 i a h
          omega

/-- If the concurrent cancel lands at the checkpoint of iteration `k` within
the range of the loop, and the cancel flag was not set before, the loop
aborts at that checkpoint: the resulting job is Cancelled with its cancel
flag set, the abort flag is raised, and every attempt event belongs to an
item strictly before `k`. -/
lemma itemLoop_cancel (f : Nat → Nat → FetchResult) (isYT : Bool) (t k : Nat) :
    ∀ (entries : List Entry) (idx : Nat) (job : Job),
      job.cancel_event = false → idx ≤ k → k < idx + entries.length →
      (itemLoop f isYT (some k) t entries idx job).2.2 = true ∧
      (itemLoop f isYT (some k) t entries idx job).1.status = Status.cancelled ∧
      (itemLoop f isYT (some k) t entries idx job).1.cancel_event = true ∧
      (∀ i a,
        Event.attempt i a ∈ (itemLoop f isYT (some k) t entries idx job).2.1 →
        i < k) := by
  intro entries
  induction entries with
  | nil =>
    intro idx job hce hk1 hk2
    simp only [List.length_nil] at hk2
    omega
  | cons e rest ih =>
    intro idx job hce hk1 hk2
    simp only [itemLoop]
    by_cases hc : k = idx
    · subst hc
      simp only [if_pos rfl]
      exact ⟨rfl, rfl, rfl, fun i a h => absurd h (List.not_mem_nil _)⟩
    · have hne : ¬ ((some k : Option Nat) = some idx) := by
        intro hcon
        exact hc (Option.some.injEq k idx ▸ hcon)
      simp only [if_neg hne]
      rw [hce]
      simp only [Bool.false_eq_true, if_false]
      have hce2 : (processItem f isYT t idx e job).1.cancel_event = false :=
        (processItem_frameEq f isYT t idx e job).2.1.trans hce
      have hk1b : idx + 1 ≤ k := by omega
      have hk2b : k < (idx + 1) + rest.length := by
        simp only [List.length_cons] at hk2
        omega
      obtain ⟨hab, hst, hcv, hevs⟩ :=
        ih (idx + 1) (processItem f isYT t idx e job).1 hce2 hk1b hk2b
      refine ⟨hab, hst, hcv, ?_⟩
      intro i a h
      simp only [List.mem_append] at h
      rcases h with h | h
      · have := processItem_events f isYT t idx e job i a h
        omega
      · exact hevs i a h

/-- If no cancel is scheduled and the flag starts unset, the loop never
aborts and the status is untouched. -/
lemma itemLoop_noCancel (f : Nat → Nat → FetchResult) (isYT : Bool) (t : Nat) :
    ∀ (entries : List Entry) (idx : Nat) (job : Job),
      job.cancel_event = false →
      (itemLoop f isYT none t entries idx job).2.2 = false ∧
      (itemLoop f isYT none t entries idx job).1.status = job.status ∧
      (itemLoop f isYT none t entries idx job).1.cancel_event = false := by
  intro entries
  induction entries with
  | nil => intro idx job hce; exact ⟨rfl, rfl, hce⟩
  | cons e rest ih =>
    intro idx job hce
    simp only [itemLoop]
    have hne : ¬ ((none : Option Nat) = some idx) := by
      intro hcon
      cases hcon
    simp only [if_neg hne]
    rw [hce]
    simp only [Bool.false_eq_true, if_false]
    have hq := processItem_frameEq f isYT t idx e job
    have hce2 : (processItem f isYT t idx e job).1.cancel_event = false :=
      hq.2.1.trans hce
    obtain ⟨h1, h2, h3⟩ := ih (idx + 1) (processItem f isYT t idx e job).1 hce2
    exact ⟨h1, h2.trans hq.2.2.1, h3⟩

/-- `idx / n` bounds for the progress update. -/
lemma progressValue_bounds (n idx : Nat) (h : idx ≤ n) :
    0 ≤ progressValue (some n) idx ∧ progressValue (some n) idx ≤ 1 := by
  simp only [progressValue]
  by_cases hn : n = 0
  · rw [if_pos hn]
    exact ⟨le_refl 0, zero_le_one⟩
  · rw [if_neg hn]
    have hpos : (0 : ℚ) < (n : ℚ) := by
      exact_mod_cast Nat.pos_of_ne_zero hn
    constructor
    · exact div_nonneg (by positivity) hpos.le
    · rw [div_le_one hpos]
      exact_mod_cast h

/-- Progress stays within `[0, 1]` through the loop, provided `total` matches
the number of remaining items. -/
lemma itemLoop_progress (f : Nat → Nat → FetchResult) (isYT : Bool)
    (c : Option Nat) (t n : Nat) :
    ∀ (entries : List Entry) (idx : Nat) (job : Job),
      job.total = some n → idx + entries.length = n + 1 →
      0 ≤ job.progress → job.progress ≤ 1 →
      0 ≤ (itemLoop f isYT c t entries idx job).1.progress ∧
      (itemLoop f isYT c t entries idx job).1.progress ≤ 1 := by
  intro entries
  induction entries with
  | nil => intro idx job ht hn h0 h1; exact ⟨h0, h1⟩
  | cons e rest ih =>
    intro idx job ht hn h0 h1
    simp only [itemLoop]
    by_cases hc : c = some idx
    · simp only [if_pos hc]
      cases hev : (applyCancel t job).cancel_event with
      | true => simp only [if_pos rfl]; exact ⟨h0, h1⟩
      | false => simp [applyCancel] at hev
    · simp only [if_neg hc]
      cases hev : job.cancel_event with
      | true => simp only [if_pos rfl]; exact ⟨h0, h1⟩
      | false =>
        simp only [Bool.false_eq_true, if_false]
        have hq := processItem_frameEq f isYT t idx e job
        have ht2 : (processItem f isYT t idx e job).1.total = some n :=
          hq.2.2.2.trans ht
        have hn2 : (idx + 1) + rest.length = n + 1 := by
          simp only [List.length_cons] at hn
          omega
        have hidx : idx ≤ n := by
          simp only [List.length_cons] at hn
          omega
        have hprog : 0 ≤ (processItem f isYT t idx e job).1.progress ∧
            (processItem f isYT t idx e job).1.progress ≤ 1 := by
          rcases processItem_progress f isYT t idx e job with hcase | hcase
          · rw [hcase.2]; exact ⟨h0, h1⟩
          · rw [hcase.2, ht]; exact progressValue_bounds n idx hidx
        exact ih (idx + 1) (processItem f isYT t idx e job).1 ht2 hn2
          hprog.1 hprog.2

/-! ## Lemmas on finalization, slicing and `run_job` -/

lemma finalizeJob_inv (t : Nat) (ab : Bool) (jf : Job) :
    paramsEq (finalizeJob t ab jf) jf ∧
    (finalizeJob t ab jf).total = jf.total ∧
    (finalizeJob t ab jf).downloaded = jf.downloaded ∧
    (finalizeJob t ab jf).failed = jf.failed ∧
    (finalizeJob t ab jf).progress = jf.progress ∧
    (finalizeJob t ab jf).cancel_event = jf.cancel_event := by
  unfold finalizeJob
  split
  · split
    · exact ⟨paramsEq_refl _, rfl, rfl, rfl, rfl, rfl⟩
    · exact ⟨⟨rfl, rfl, rfl, rfl, rfl, rfl⟩, rfl, rfl, rfl, rfl, rfl⟩
  · split
    · exact ⟨paramsEq_refl _, rfl, rfl, rfl, rfl, rfl⟩
    · exact ⟨⟨rfl, rfl, rfl, rfl, rfl, rfl⟩, rfl, rfl, rfl, rfl, rfl⟩

lemma finalizeJob_cancelled (t : Nat) (ab : Bool) (jf : Job)
    (h : jf.status = Status.cancelled) : finalizeJob t ab jf = jf := by
  unfold finalizeJob
  split <;> rfl

lemma finalizeJob_run (t : Nat) (jf : Job)
    (h : ¬ jf.status = Status.cancelled) :
    finalizeJob t false jf
      = { jf with status := Status.completed,
                  message := doneMsg jf.downloaded jf.failed,
                  updated_at := t } := by
  unfold finalizeJob
  rw [if_neg (by simp), if_neg h]

lemma applyMaxVideos_pos {α : Type} (l : List α) (mv : Int) (h : 0 < mv) :
    applyMaxVideos (some mv) l = l.take mv.toNat := by
  simp only [applyMaxVideos, pySliceTo]
  rw [if_neg (by omega : ¬ mv = 0), if_pos (by omega : (0 : Int) ≤ mv)]

lemma applyMaxVideos_neg {α : Type} (l : List α) (mv : Int) (h : mv < 0) :
    applyMaxVideos (some mv) l = l.take (l.length - (-mv).toNat) := by
  simp only [applyMaxVideos, pySliceTo]
  rw [if_neg (by omega : ¬ mv = 0), if_neg (by omega : ¬ (0 : Int) ≤ mv)]
  have h2 : ((l.length : Int) + mv).toNat = l.length - (-mv).toNat := by omega
  rw [h2]

lemma applyMaxVideos_nil {α : Type} (mv : Option Int) :
    applyMaxVideos mv ([] : List α) = [] := by
  cases mv with
  | none => rfl
  | some n =>
    simp only [applyMaxVideos, pySliceTo]
    split
    · rfl
    · split <;> simp

lemma run_job_absent (o : Extractor) (c : Option Nat) (t : Nat) :
    run_job o c t none = (none, []) := rfl

lemma run_job_cancelled_guard (o : Extractor) (c : Option Nat) (t : Nat)
    (j : Job) (h : j.status = Status.cancelled) :
    run_job o c t (some j) = (some j, []) := by
  simp only [run_job]
  rw [if_pos h]

/-- Characterization of a run whose primary extraction succeeds. -/
lemma run_job_primary (o : Extractor) (c : Option Nat) (t : Nat) (j : Job)
    (info : Info) (hs : ¬ j.status = Status.cancelled)
    (hp : o.primary = some info) :
    run_job o c t (some j)
      = (some (finalizeJob t
            (itemLoop o.fetch (isYouTubeUrl j.profile_url) c t
              (discoveredEntries j info) 1
              { j with status := Status.running,
                       total := some (discoveredEntries j info).length,
                       progress := 0, updated_at := t }).2.2
            (itemLoop o.fetch (isYouTubeUrl j.profile_url) c t
              (discoveredEntries j info) 1
              { j with status := Status.running,
                       total := some (discoveredEntries j info).length,
                       progress := 0, updated_at := t }).1),
          (itemLoop o.fetch (isYouTubeUrl j.profile_url) c t
            (discoveredEntries j info) 1
            { j with status := Status.running,
                     total := some (discoveredEntries j info).length,
                     progress := 0, updated_at := t }).2.1) := by
  simp only [run_job]
  rw [if_neg hs]
  rw [extractInfo_primary o (isYouTubeUrl j.profile_url) t
    { j with status := Status.running, updated_at := t } info hp]
  rfl

/-- `run_job` on a present job always yields a job with the same request
parameters. -/
lemma run_job_params (o : Extractor) (c : Option Nat) (t : Nat) (j : Job) :
    ∃ jf, (run_job o c t (some j)).1 = some jf ∧ paramsEq jf j := by
  by_cases hs : j.status = Status.cancelled
  · rw [run_job_cancelled_guard o c t j hs]
    exact ⟨j, rfl, paramsEq_refl j⟩
  · simp only [run_job]
    rw [if_neg hs]
    cases hinfo : (extractInfo o (isYouTubeUrl j.profile_url) t
        { j with status := Status.running, updated_at := t }).2 with
    | none =>
      cases hyt : isYouTubeUrl j.profile_url with
      | true =>
        refine ⟨_, rfl, ?_⟩
        refine paramsEq_trans (paramsEq_trans ⟨rfl, rfl, rfl, rfl, rfl, rfl⟩
          (extractInfo_inv o true t _).1.1.1) ⟨rfl, rfl, rfl, rfl, rfl, rfl⟩
      | false =>
        refine ⟨_, rfl, ?_⟩
        refine paramsEq_trans (paramsEq_trans ⟨rfl, rfl, rfl, rfl, rfl, rfl⟩
          (extractInfo_inv o false t _).1.1.1) ⟨rfl, rfl, rfl, rfl, rfl, rfl⟩
    | some info =>
      refine ⟨_, rfl, ?_⟩
      refine paramsEq_trans (finalizeJob_inv t _ _).1 ?_
      refine paramsEq_trans (itemLoop_inv o.fetch _ c t _ 1 _).1 ?_
      refine paramsEq_trans (⟨rfl, rfl, rfl, rfl, rfl, rfl⟩ :
        paramsEq _ (extractInfo o (isYouTubeUrl j.profile_url) t
          { j with status := Status.running, updated_at := t }).1) ?_
      refine paramsEq_trans (extractInfo_inv o _ t _).1.1.1 ?_
      exact ⟨rfl, rfl, rfl, rfl, rfl, rfl⟩

/-! ## Claim C1 -/

/-- C1, refuted at a concrete input: `cancel_job` on a Completed job does not
leave the terminal status alone — it overwrites it with Cancelled
(`downloader.py` line 84 runs unconditionally). -/
theorem C1_counterexample :
    jobDone.status = Status.completed ∧
    (cancel_job (some jobDone) 9).1.map Job.status = some Status.cancelled ∧
    (cancel_job (some jobDone) 9).1.map Job.status ≠ some jobDone.status := by
  refine ⟨rfl, rfl, ?_⟩
  decide

/-- C1 (amended): `cancel_job` on an existing job is never a status no-op: it
unconditionally sets the cancel signal and overwrites `status` with
Cancelled, even when the job is already Completed or Failed.  Only `run_job`
leaves a Cancelled job untouched (its entry guard). -/
theorem C1_amended (j : Job) (t : Nat) (o : Extractor) (c : Option Nat) :
    (cancel_job (some j) t).1.map Job.status = some Status.cancelled ∧
    (cancel_job (some j) t).1.map Job.cancel_event = some true ∧
    (cancel_job (some j) t).2 = true ∧
    (j.status = Status.cancelled → run_job o c t (some j) = (some j, [])) := by
  refine ⟨rfl, rfl, rfl, ?_⟩
  intro h
  exact run_job_cancelled_guard o c t j h

/-- C1 amended claim exercised at concrete inputs. -/
theorem C1_witness :
    (cancel_job (some jobDone) 3).1.map Job.status = some Status.cancelled ∧
    run_job exNone none 3 (some (applyCancel 0 jobTik))
      = (some (applyCancel 0 jobTik), []) :=
  ⟨(C1_amended jobDone 3 exNone none).1,
   (C1_amended (applyCancel 0 jobTik) 3 exNone none).2.2.2 rfl⟩

/-! ## Claim C5 -/

/-- C5: if the primary extraction and every fallback profile fail, the job
transitions to Failed with the YouTube-specific diagnostic for YouTube URLs
and the generic diagnostic otherwise, no item is processed (empty trace),
and `total`, `downloaded`, `failed` and `progress` are left as they were. -/
theorem C5_confirmed (o : Extractor) (c : Option Nat) (t : Nat) (j : Job)
    (hs : ¬ j.status = Status.cancelled)
    (hp : o.primary = none) (hfb : ∀ i, o.fallbackResult i = none) :
    ∃ jf, run_job o c t (some j) = (some jf, []) ∧
      jf.status = Status.failed ∧
      jf.message = (if isYouTubeUrl j.profile_url then youtubeFailMsg
                    else genericFailMsg) ∧
      jf.total = j.total ∧ jf.downloaded = j.downloaded ∧
      jf.failed = j.failed ∧ jf.progress = j.progress := by
  simp only [run_job]
  rw [if_neg hs]
  have hnone := extractInfo_none o (isYouTubeUrl j.profile_url) t
    { j with status := Status.running, updated_at := t } hp hfb
  rw [hnone]
  cases hyt : isYouTubeUrl j.profile_url with
  | true =>
    refine ⟨_, rfl, rfl, rfl, ?_, ?_, ?_, ?_⟩
    · exact (extractInfo_inv o true t _).1.1.2.2.2
    · exact (extractInfo_inv o true t _).2.1
    · exact (extractInfo_inv o true t _).2.2
    · exact (extractInfo_inv o true t _).1.2
  | false =>
    refine ⟨_, rfl, rfl, rfl, ?_, ?_, ?_, ?_⟩
    · exact (extractInfo_inv o false t _).1.1.2.2.2
    · exact (extractInfo_inv o false t _).2.1
    · exact (extractInfo_inv o false t _).2.2
    · exact (extractInfo_inv o false t _).1.2

/-- C5 exercised at concrete inputs: a YouTube job and a TikTok job whose
extraction fails everywhere end Failed with the respective diagnostics and
untouched counters. -/
theorem C5_witness :
    (∃ jf, run_job exNone none 2 (some jobYT) = (some jf, []) ∧
      jf.status = Status.failed ∧
      jf.message = (if isYouTubeUrl jobYT.profile_url then youtubeFailMsg
                    else genericFailMsg) ∧
      jf.total = jobYT.total ∧ jf.downloaded = jobYT.downloaded ∧
      jf.failed = jobYT.failed ∧ jf.progress = jobYT.progress) ∧
    (∃ jf, run_job exNone none 2 (some jobTik) = (some jf, []) ∧
      jf.status = Status.failed ∧
      jf.message = (if isYouTubeUrl jobTik.profile_url then youtubeFailMsg
                    else genericFailMsg) ∧
      jf.total = jobTik.total ∧ jf.downloaded = jobTik.downloaded ∧
      jf.failed = jobTik.failed ∧ jf.progress = jobTik.progress) :=
  ⟨C5_confirmed exNone none 2 jobYT (by decide) rfl (fun _ => rfl),
   C5_confirmed exNone none 2 jobTik (by decide) rfl (fun _ => rfl)⟩

/-! ## Claim C9 -/

/-- C9: the first-k truncation holds only for positive caps.  A cap of `0` is
falsy and skips truncation entirely; a negative cap, through the Python
slice `entries[:mv]`, keeps everything but the last `|mv|` entries; and the
HTTP-handler normalization parses and forwards any integer, `0` and negative
values included. -/
theorem C9_confirmed (l : List Entry) (mv : Int) (h : mv < 0) :
    applyMaxVideos (some (0 : Int)) l = l ∧
    applyMaxVideos (some mv) l ++ l.drop (l.length - (-mv).toNat) = l ∧
    (applyMaxVideos (some mv) l).length = l.length - (-mv).toNat ∧
    normalizeMaxVideos (some zeroPad) = some 0 ∧
    normalizeMaxVideos (some negFiveStr) = some (-5) := by
  refine ⟨rfl, ?_, ?_, ?_, ?_⟩
  · rw [applyMaxVideos_neg l mv h]
    exact List.take_append_drop _ l
  · rw [applyMaxVideos_neg l mv h, List.length_take]
    omega
  · rfl
  · rfl

/-- C9 exercised at concrete inputs: 5 entries with `mv = -2` keep the first
3; `" 0 "` and `"-5"` parse to `0` and `-5`. -/
theorem C9_witness :
    applyMaxVideos (some (0 : Int)) fiveEntries = fiveEntries ∧
    applyMaxVideos (some (-2 : Int)) fiveEntries ++
        fiveEntries.drop (fiveEntries.length - (-(-2 : Int)).toNat)
      = fiveEntries ∧
    (applyMaxVideos (some (-2 : Int)) fiveEntries).length
      = fiveEntries.length - (-(-2 : Int)).toNat ∧
    normalizeMaxVideos (some zeroPad) = some 0 ∧
    normalizeMaxVideos (some negFiveStr) = some (-5) :=
  C9_confirmed fiveEntries (-2) (by decide)

/-! ## Claim C10 -/

/-- C10: neither `run_job` nor `cancel_job` ever modifies the request
parameters `id`, `profile_url`, `output_root`, `max_videos`, `proxy`, or the
`created_at` timestamp. -/
theorem C10_confirmed (o : Extractor) (c : Option Nat) (t : Nat) (j : Job) :
    ((cancel_job (some j) t).1.map Job.id = some j.id ∧
     (cancel_job (some j) t).1.map Job.profile_url = some j.profile_url ∧
     (cancel_job (some j) t).1.map Job.output_root = some j.output_root ∧
     (cancel_job (some j) t).1.map Job.max_videos = some j.max_videos ∧
     (cancel_job (some j) t).1.map Job.proxy = some j.proxy ∧
     (cancel_job (some j) t).1.map Job.created_at = some j.created_at) ∧
    ((run_job o c t (some j)).1.map Job.id = some j.id ∧
     (run_job o c t (some j)).1.map Job.profile_url = some j.profile_url ∧
     (run_job o c t (some j)).1.map Job.output_root = some j.output_root ∧
     (run_job o c t (some j)).1.map Job.max_videos = some j.max_videos ∧
     (run_job o c t (some j)).1.map Job.proxy = some j.proxy ∧
     (run_job o c t (some j)).1.map Job.created_at = some j.created_at) := by
  obtain ⟨jf, hjf, hp⟩ := run_job_params o c t j
  refine ⟨⟨rfl, rfl, rfl, rfl, rfl, rfl⟩, ?_, ?_, ?_, ?_, ?_, ?_⟩
  · rw [hjf]; exact congrArg some hp.1
  · rw [hjf]; exact congrArg some hp.2.1
  · rw [hjf]; exact congrArg some hp.2.2.1
  · rw [hjf]; exact congrArg some hp.2.2.2.1
  · rw [hjf]; exact congrArg some hp.2.2.2.2.1
  · rw [hjf]; exact congrArg some hp.2.2.2.2.2

/-! ## Claim C3 -/

/-- C3: `run` returns immediately if the job is absent or already Cancelled at
call time; and when the concurrent cancel (which sets both the signal and
status=Cancelled) lands at the checkpoint of loop iteration `k`, no item from
iteration `k` on is ever attempted and the job ends Cancelled. -/
theorem C3_confirmed (o : Extractor) (c : Option Nat) (t : Nat) :
    run_job o c t none = (none, []) ∧
    (∀ j : Job, j.status = Status.cancelled →
      run_job o c t (some j) = (some j, [])) ∧
    (∀ (j : Job) (info : Info) (k : Nat),
      ¬ j.status = Status.cancelled → j.cancel_event = false →
      o.primary = some info → c = some k →
      1 ≤ k → k ≤ (discoveredEntries j info).length →
      ∃ jf evs, run_job o c t (some j) = (some jf, evs) ∧
        jf.status = Status.cancelled ∧ jf.cancel_event = true ∧
        ∀ i a, Event.attempt i a ∈ evs → i < k) := by
  refine ⟨rfl, ?_, ?_⟩
  · intro j h
    exact run_job_cancelled_guard o c t j h
  · intro j info k hs hce hp hc hk1 hk2
    subst hc
    rw [run_job_primary o (some k) t j info hs hp]
    have hce0 : ({ j with status := Status.running,
                          total := some (discoveredEntries j info).length,
                          progress := 0,
                          updated_at := t } : Job).cancel_event = false := hce
    obtain ⟨hab, hst, hcv, hevs⟩ := itemLoop_cancel o.fetch
      (isYouTubeUrl j.profile_url) t k (discoveredEntries j info) 1 _ hce0 hk1
      (by omega)
    refine ⟨_, _, rfl, ?_, ?_, hevs⟩
    · rw [finalizeJob_cancelled t _ _ hst]
      exact hst
    · rw [finalizeJob_cancelled t _ _ hst]
      exact hcv

/-- C3 exercised at a concrete input: cancelling at the checkpoint of the
first iteration of a 2-item job yields a Cancelled job with no attempts. -/
theorem C3_witness :
    ∃ jf evs, run_job exTwo (some 1) 0 (some jobTik) = (some jf, evs) ∧
      jf.status = Status.cancelled ∧ jf.cancel_event = true ∧
      ∀ i a, Event.attempt i a ∈ evs → i < 1 :=
  (C3_confirmed exTwo (some 1) 0).2.2 jobTik
    (Info.playlist [some entryOk, some entryOk]) 1
    (by decide) rfl rfl rfl (by decide) (by decide)

/-! ## Claim C4 -/

/-- C4: for a positive `max_videos` cap, the runner runs over exactly the
first `max_videos` discovered entries in discovery order (the Python slice is
an order-preserving prefix), sets `total` to the truncated length, and every
download attempt targets an item index within that prefix. -/
theorem C4_confirmed (o : Extractor) (t : Nat) (j : Job) (info : Info)
    (mv : Int) (hs : ¬ j.status = Status.cancelled)
    (hp : o.primary = some info) (hmv : j.max_videos = some mv)
    (hpos : 0 < mv) :
    discoveredEntries j info = (normalizeEntries info).take mv.toNat ∧
    ∃ jf evs, run_job o none t (some j) = (some jf, evs) ∧
      jf.total = some (min mv.toNat (normalizeEntries info).length) ∧
      ∀ i a, Event.attempt i a ∈ evs →
        1 ≤ i ∧ i ≤ min mv.toNat (normalizeEntries info).length := by
  have hde : discoveredEntries j info = (normalizeEntries info).take mv.toNat := by
    unfold discoveredEntries
    rw [hmv]
    exact applyMaxVideos_pos _ mv hpos
  refine ⟨hde, ?_⟩
  rw [run_job_primary o none t j info hs hp]
  refine ⟨_, _, rfl, ?_, ?_⟩
  · rw [(finalizeJob_inv t _ _).2.1, (itemLoop_inv o.fetch _ none t _ 1 _).2.1]
    show some (discoveredEntries j info).length
      = some (min mv.toNat (normalizeEntries info).length)
    rw [hde, List.length_take]
  · intro i a hmem
    have hb := itemLoop_events o.fetch (isYouTubeUrl j.profile_url) none t
      (discoveredEntries j info) 1 _ i a hmem
    rw [hde, List.length_take] at hb
    omega

/-- C4 exercised at a concrete input: 10 discovered entries with
`max_videos = 3` give `total = 3` and attempts only on items 1-3. -/
theorem C4_witness :
    discoveredEntries jobMv3 (Info.playlist tenSome)
      = (normalizeEntries (Info.playlist tenSome)).take (3 : Int).toNat ∧
    ∃ jf evs, run_job exTen none 0 (some jobMv3) = (some jf, evs) ∧
      jf.total = some (min (3 : Int).toNat
        (normalizeEntries (Info.playlist tenSome)).length) ∧
      ∀ i a, Event.attempt i a ∈ evs →
        1 ≤ i ∧ i ≤ min (3 : Int).toNat
          (normalizeEntries (Info.playlist tenSome)).length :=
  C4_confirmed exTen 0 jobMv3 (Info.playlist tenSome) 3 (by decide) rfl rfl
    (by decide)

/-- A run whose discovery phase produces no info (primary and fallbacks all
failed) ends Failed with an empty trace and untouched counters. -/
lemma run_job_extract_none (o : Extractor) (c : Option Nat) (t : Nat)
    (j : Job) (hs : ¬ j.status = Status.cancelled)
    (hn : (extractInfo o (isYouTubeUrl j.profile_url) t
      { j with status := Status.running, updated_at := t }).2 = none) :
    ∃ jf, run_job o c t (some j) = (some jf, []) ∧
      jf.status = Status.failed ∧ jf.total = j.total ∧
      jf.downloaded = j.downloaded ∧ jf.failed = j.failed ∧
      jf.progress = j.progress := by
  simp only [run_job]
  rw [if_neg hs, hn]
  cases hyt : isYouTubeUrl j.profile_url with
  | true =>
    refine ⟨_, rfl, rfl, ?_, ?_, ?_, ?_⟩
    · exact (extractInfo_inv o true t _).1.1.2.2.2
    · exact (extractInfo_inv o true t _).2.1
    · exact (extractInfo_inv o true t _).2.2
    · exact (extractInfo_inv o true t _).1.2
  | false =>
    refine ⟨_, rfl, rfl, ?_, ?_, ?_, ?_⟩
    · exact (extractInfo_inv o false t _).1.1.2.2.2
    · exact (extractInfo_inv o false t _).2.1
    · exact (extractInfo_inv o false t _).2.2
    · exact (extractInfo_inv o false t _).1.2

/-- A run whose discovery phase produces info sets `total` to the discovered
entry count and charges at most one counter unit per entry. -/
lemma run_job_some_total_sum (o : Extractor) (c : Option Nat) (t : Nat)
    (j : Job) (info : Info) (hs : ¬ j.status = Status.cancelled)
    (hinfo : (extractInfo o (isYouTubeUrl j.profile_url) t
      { j with status := Status.running, updated_at := t }).2 = some info) :
    ∃ jf evs, ∃ E : List Entry, run_job o c t (some j) = (some jf, evs) ∧
      jf.total = some E.length ∧
      jf.downloaded + jf.failed ≤ j.downloaded + j.failed + E.length := by
  simp only [run_job]
  rw [if_neg hs, hinfo]
  have hexd : (extractInfo o (isYouTubeUrl j.profile_url) t
      { j with status := Status.running, updated_at := t }).1.downloaded
      = j.downloaded :=
    (extractInfo_inv o (isYouTubeUrl j.profile_url) t
      { j with status := Status.running, updated_at := t }).2.1
  have hexf : (extractInfo o (isYouTubeUrl j.profile_url) t
      { j with status := Status.running, updated_at := t }).1.failed
      = j.failed :=
    (extractInfo_inv o (isYouTubeUrl j.profile_url) t
      { j with status := Status.running, updated_at := t }).2.2
  generalize hEX : (extractInfo o (isYouTubeUrl j.profile_url) t
    { j with status := Status.running, updated_at := t }).1 = ex1
  rw [hEX] at hexd hexf
  refine ⟨_, _, discoveredEntries ex1 info, rfl, ?_, ?_⟩
  · exact ((finalizeJob_inv t _ _).2.1).trans
      ((itemLoop_inv o.fetch (isYouTubeUrl j.profile_url) c t
        (discoveredEntries ex1 info) 1
        { ex1 with total := some (discoveredEntries ex1 info).length,
                   progress := 0, updated_at := t }).2.1)
  · rw [(finalizeJob_inv t _ _).2.2.1, (finalizeJob_inv t _ _).2.2.2.1]
    have hsum := (itemLoop_inv o.fetch (isYouTubeUrl j.profile_url) c t
      (discoveredEntries ex1 info) 1
      { ex1 with total := some (discoveredEntries ex1 info).length,
                 progress := 0, updated_at := t }).2.2
    have hd0 : ({ ex1 with
        total := some (discoveredEntries ex1 info).length,
        progress := 0, updated_at := t } : Job).downloaded = j.downloaded := hexd
    have hf0 : ({ ex1 with
        total := some (discoveredEntries ex1 info).length,
        progress := 0, updated_at := t } : Job).failed = j.failed := hexf
    omega

/-- A run whose discovery phase produces info resets progress to 0 and keeps
it within `[0, 1]` through the loop and finalization. -/
lemma run_job_some_progress (o : Extractor) (c : Option Nat) (t : Nat)
    (j : Job) (info : Info) (hs : ¬ j.status = Status.cancelled)
    (hinfo : (extractInfo o (isYouTubeUrl j.profile_url) t
      { j with status := Status.running, updated_at := t }).2 = some info) :
    ∃ jf evs, run_job o c t (some j) = (some jf, evs) ∧
      0 ≤ jf.progress ∧ jf.progress ≤ 1 := by
  simp only [run_job]
  rw [if_neg hs, hinfo]
  generalize hEX : (extractInfo o (isYouTubeUrl j.profile_url) t
    { j with status := Status.running, updated_at := t }).1 = ex1
  refine ⟨_, _, rfl, ?_, ?_⟩
  · rw [(finalizeJob_inv t _ _).2.2.2.2.1]
    exact (itemLoop_progress o.fetch (isYouTubeUrl j.profile_url) c t
      (discoveredEntries ex1 info).length (discoveredEntries ex1 info) 1
      { ex1 with total := some (discoveredEntries ex1 info).length,
                 progress := 0, updated_at := t }
      rfl (by omega) (le_refl 0) zero_le_one).1
  · rw [(finalizeJob_inv t _ _).2.2.2.2.1]
    exact (itemLoop_progress o.fetch (isYouTubeUrl j.profile_url) c t
      (discoveredEntries ex1 info).length (discoveredEntries ex1 info) 1
      { ex1 with total := some (discoveredEntries ex1 info).length,
                 progress := 0, updated_at := t }
      rfl (by omega) (le_refl 0) zero_le_one).2

/-! ## Claim C7 -/

/-- C7: starting from a fresh job (zero counters, unset total),
`downloaded + failed` never exceeds `total` once `total` is set — the run
ends with `downloaded + failed ≤ total`, and each processed item charges
exactly one unit to exactly one of the two counters. -/
theorem C7_confirmed (o : Extractor) (c : Option Nat) (t : Nat) (j : Job)
    (h0 : j.downloaded = 0) (h1 : j.failed = 0) (h2 : j.total = none) :
    (∀ jf n, (run_job o c t (some j)).1 = some jf → jf.total = some n →
      jf.downloaded + jf.failed ≤ n) ∧
    (∀ (f : Nat → Nat → FetchResult) (isYT : Bool) (idx : Nat) (e : Entry)
        (job : Job),
      (processItem f isYT t idx e job).1.downloaded +
          (processItem f isYT t idx e job).1.failed
        = job.downloaded + job.failed + 1) := by
  constructor
  · intro jf n hjf hn
    by_cases hs : j.status = Status.cancelled
    · rw [run_job_cancelled_guard o c t j hs] at hjf
      have hEq : some j = some jf := hjf
      injection hEq with hEq2
      rw [← hEq2, h2] at hn
      exact absurd hn (by simp)
    · cases hinfo : (extractInfo o (isYouTubeUrl j.profile_url) t
          { j with status := Status.running, updated_at := t }).2 with
      | none =>
        obtain ⟨jf2, hrun, _, htot, _, _, _⟩ :=
          run_job_extract_none o c t j hs hinfo
        rw [hrun] at hjf
        have hEq : some jf2 = some jf := hjf
        injection hEq with hEq2
        rw [← hEq2, htot, h2] at hn
        exact absurd hn (by simp)
      | some info =>
        obtain ⟨jf2, evs2, E, hrun, htot, hsum⟩ :=
          run_job_some_total_sum o c t j info hs hinfo
        rw [hrun] at hjf
        have hEq : some jf2 = some jf := hjf
        injection hEq with hEq2
        rw [← hEq2, htot] at hn
        injection hn with hn2
        rw [← hEq2, h0, h1] at *
        omega
  · intro f isYT idx e job
    exact processItem_sum f isYT t idx e job

/-- C7 exercised at a concrete input: a 2-item job with one success per item
ends with `downloaded + failed = 2 ≤ total = 2`. -/
theorem C7_witness :
    (∀ jf n, (run_job exTwo none 0 (some jobTik)).1 = some jf →
      jf.total = some n → jf.downloaded + jf.failed ≤ n) ∧
    (∀ (f : Nat → Nat → FetchResult) (isYT : Bool) (idx : Nat) (e : Entry)
        (job : Job),
      (processItem f isYT 0 idx e job).1.downloaded +
          (processItem f isYT 0 idx e job).1.failed
        = job.downloaded + job.failed + 1) :=
  C7_confirmed exTwo none 0 jobTik rfl rfl rfl

/-! ## Claim C8 -/

/-- C8, refuted at a concrete input: after the loop processes an item with no
resolvable URL (the `continue` on line 354 skips the progress update on line
396), `progress` is unchanged — here 0 — and not `idx / total = 1 / 2`. -/
theorem C8_counterexample :
    jobTot2.total = some 2 ∧
    resolveUrl entryNoUrl = none ∧
    (processItem (fun _ _ => FetchResult.success fnA) false 4 1 entryNoUrl
        jobTot2).1.progress = 0 ∧
    ¬ ((0 : ℚ) = 1 / 2) := by
  refine ⟨rfl, rfl, rfl, ?_⟩
  norm_num

/-- C8 (amended): `progress` always stays in `[0, 1]`; it is untouched (and
the job record unchanged in that field) while `total` is unknown, reset to 0
when `total` is set, and equals exactly `idx / total` after the idx-th item
when that item had a resolvable URL — an item skipped by the URL-less
`continue` leaves `progress` unchanged instead. -/
theorem C8_amended (o : Extractor) (c : Option Nat) (t : Nat) :
    (∀ j : Job, 0 ≤ j.progress → j.progress ≤ 1 →
      ∀ jf, (run_job o c t (some j)).1 = some jf →
        0 ≤ jf.progress ∧ jf.progress ≤ 1) ∧
    (∀ (f : Nat → Nat → FetchResult) (isYT : Bool) (idx : Nat) (e : Entry)
        (job : Job) (u : String) (n : Nat),
      resolveUrl e = some u → job.total = some n → ¬ n = 0 →
      (processItem f isYT t idx e job).1.progress = (idx : ℚ) / (n : ℚ)) ∧
    (∀ (f : Nat → Nat → FetchResult) (isYT : Bool) (idx : Nat) (e : Entry)
        (job : Job),
      resolveUrl e = none →
      (processItem f isYT t idx e job).1.progress = job.progress) ∧
    (∀ (j : Job) (info : Info), ¬ j.status = Status.cancelled →
      o.primary = some info → normalizeEntries info = [] →
      ∀ jf, (run_job o c t (some j)).1 = some jf →
        jf.progress = 0 ∧ jf.total = some 0) := by
  refine ⟨?_, ?_, ?_, ?_⟩
  · intro j hp0 hp1 jf hjf
    by_cases hs : j.status = Status.cancelled
    · rw [run_job_cancelled_guard o c t j hs] at hjf
      have hEq : some j = some jf := hjf
      injection hEq with hEq2
      rw [← hEq2]
      exact ⟨hp0, hp1⟩
    · cases hinfo : (extractInfo o (isYouTubeUrl j.profile_url) t
          { j with status := Status.running, updated_at := t }).2 with
      | none =>
        obtain ⟨jf2, hrun, _, _, _, _, hprog⟩ :=
          run_job_extract_none o c t j hs hinfo
        rw [hrun] at hjf
        have hEq : some jf2 = some jf := hjf
        injection hEq with hEq2
        rw [← hEq2, hprog]
        exact ⟨hp0, hp1⟩
      | some info =>
        obtain ⟨jf2, evs2, hrun, hb0, hb1⟩ :=
          run_job_some_progress o c t j info hs hinfo
        rw [hrun] at hjf
        have hEq : some jf2 = some jf := hjf
        injection hEq with hEq2
        rw [← hEq2]
        exact ⟨hb0, hb1⟩
  · intro f isYT idx e job u n hu ht hn
    rcases processItem_progress f isYT t idx e job with ⟨hnone, _⟩ | ⟨_, hval⟩
    · rw [hu] at hnone
      exact absurd hnone (by simp)
    · rw [hval, ht]
      simp only [progressValue]
      rw [if_neg hn]
  · intro f isYT idx e job hu
    rcases processItem_progress f isYT t idx e job with ⟨_, hval⟩ | ⟨⟨u, hsome⟩, _⟩
    · exact hval
    · rw [hu] at hsome
      exact absurd hsome (by simp)
  · intro j info hs hp hnil jf hjf
    rw [run_job_primary o c t j info hs hp] at hjf
    have hE : discoveredEntries j info = [] := by
      unfold discoveredEntries
      rw [hnil]
      exact applyMaxVideos_nil _
    rw [hE] at hjf
    have hEq2 := hjf
    injection hEq2 with hEq3
    rw [← hEq3]
    exact ⟨rfl, rfl⟩

/-- C8 amended claim exercised at concrete inputs: bounds on a fresh run,
`1/2` after the first resolvable item of a 2-item job, unchanged progress on
a URL-less item, and the reset on an empty discovery. -/
theorem C8_witness :
    (∀ jf, (run_job exTwo none 0 (some jobTik)).1 = some jf →
      0 ≤ jf.progress ∧ jf.progress ≤ 1) ∧
    (processItem (fun _ _ => FetchResult.success fnA) false 0 1 entryOk
        jobTot2).1.progress = (1 : ℚ) / (2 : ℚ) ∧
    (processItem (fun _ _ => FetchResult.success fnA) false 0 1 entryNoUrl
        jobTot2).1.progress = jobTot2.progress := by
  refine ⟨?_, ?_, ?_⟩
  · intro jf hjf
    exact (C8_amended exTwo none 0).1 jobTik (le_refl 0) zero_le_one jf hjf
  · exact (C8_amended exTwo none 0).2.1
      (fun _ _ => FetchResult.success fnA) false 1 entryOk jobTot2 vidUrl1 2
      rfl rfl (by decide)
  · exact (C8_amended exTwo none 0).2.2.1
      (fun _ _ => FetchResult.success fnA) false 1 entryNoUrl jobTot2 rfl

/-! ## Claim C6 -/

/-- C6: an item whose download fails with a non-rate-limit error gets exactly
one attempt, no backoff sleep, a single `failed` increment, an unchanged
`downloaded`, and the loop proceeds immediately to the next item. -/
theorem C6_confirmed (f : Nat → Nat → FetchResult) (t idx : Nat) (job : Job)
    (e : Entry) (rest : List Entry) (u m : String)
    (hurl : resolveUrl e = some u)
    (hf : f idx 0 = FetchResult.failure m)
    (hm : isRateLimitMsg m = false)
    (hce : job.cancel_event = false) :
    processItem f false t idx e job
      = ({ job with failed := job.failed + 1,
                    progress := progressValue job.total idx, updated_at := t },
         [Event.attempt idx 0]) ∧
    sleepsOf [Event.attempt idx 0] = [] ∧
    itemLoop f false none t (e :: rest) idx job
      = ((itemLoop f false none t rest (idx + 1)
            { job with failed := job.failed + 1,
                       progress := progressValue job.total idx,
                       updated_at := t }).1,
         Event.attempt idx 0
           :: (itemLoop f false none t rest (idx + 1)
               { job with failed := job.failed + 1,
                          progress := progressValue job.total idx,
                          updated_at := t }).2.1,
         (itemLoop f false none t rest (idx + 1)
            { job with failed := job.failed + 1,
                       progress := progressValue job.total idx,
                       updated_at := t }).2.2) := by
  have hPI : processItem f false t idx e job
      = ({ job with failed := job.failed + 1,
                    progress := progressValue job.total idx, updated_at := t },
         [Event.attempt idx 0]) := by
    simp only [processItem, hurl, attemptLoop, max_retries, attemptLoopAux,
      backoffJob, backoffEvents, hf, hm, interItemEvents]
    simp [Job.mk.injEq]
  refine ⟨hPI, rfl, ?_⟩
  simp only [itemLoop]
  rw [if_neg (fun hcon => Option.noConfusion hcon)]
  rw [if_neg (fun hcon => Bool.false_ne_true (hce.symm.trans hcon))]
  rw [hPI]
  rfl

/-- C6 exercised at a concrete input: one permanent failure, one attempt, no
sleep, `failed` up by one, loop continues. -/
theorem C6_witness :
    processItem (fun _ _ => FetchResult.failure permMsgEx) false 0 1 entryOk
        jobTik
      = ({ jobTik with failed := jobTik.failed + 1,
                       progress := progressValue jobTik.total 1,
                       updated_at := 0 },
         [Event.attempt 1 0]) ∧
    sleepsOf [Event.attempt 1 0] = [] ∧
    itemLoop (fun _ _ => FetchResult.failure permMsgEx) false none 0
        [entryOk] 1 jobTik
      = ((itemLoop (fun _ _ => FetchResult.failure permMsgEx) false none 0
            [] 2
            { jobTik with failed := jobTik.failed + 1,
                          progress := progressValue jobTik.total 1,
                          updated_at := 0 }).1,
         Event.attempt 1 0
           :: (itemLoop (fun _ _ => FetchResult.failure permMsgEx) false none 0
               [] 2
               { jobTik with failed := jobTik.failed + 1,
                             progress := progressValue jobTik.total 1,
                             updated_at := 0 }).2.1,
         (itemLoop (fun _ _ => FetchResult.failure permMsgEx) false none 0
            [] 2
            { jobTik with failed := jobTik.failed + 1,
                          progress := progressValue jobTik.total 1,
                          updated_at := 0 }).2.2) :=
  C6_confirmed (fun _ _ => FetchResult.failure permMsgEx) 0 1 jobTik entryOk
    [] vidUrl1 permMsgEx rfl rfl (by decide) rfl

/-! ## Claim C2 -/

/-- C2, refuted at a concrete input: an item that always fails rate-limited
gets exactly 3 attempts and one `failed` increment, but the backoff sleeps
are 15s and 45s (`5 * 3^attempt` for attempt 1 and 2) — there is no 5-second
sleep, so the waits are not 5s/15s/45s. -/
theorem C2_counterexample :
    sleepsOf (run_job exRate none 0 (some jobTik)).2 = [15, 45] ∧
    sleepsOf (run_job exRate none 0 (some jobTik)).2 ≠ [5, 15, 45] ∧
    (attemptsOf (run_job exRate none 0 (some jobTik)).2).length = 3 ∧
    (run_job exRate none 0 (some jobTik)).1.map Job.failed = some 1 := by
  refine ⟨?_, ?_, ?_, ?_⟩ <;> decide

/-- C2 (amended): for an item failing every attempt with a rate-limit error
the runner makes exactly 3 attempts, sleeping only before the 2nd and 3rd
attempts, with waits computed as `base_delay * 3^attempt` — 15s and 45s, not
5s/15s/45s — then increments `failed` exactly once (recording the blocked
message) and proceeds to the next item. -/
theorem C2_amended (f : Nat → Nat → FetchResult) (t idx : Nat) (job : Job)
    (e : Entry) (rest : List Entry) (u m0 m1 m2 : String)
    (hurl : resolveUrl e = some u)
    (hf0 : f idx 0 = FetchResult.failure m0) (hr0 : isRateLimitMsg m0 = true)
    (hf1 : f idx 1 = FetchResult.failure m1) (hr1 : isRateLimitMsg m1 = true)
    (hf2 : f idx 2 = FetchResult.failure m2) (hr2 : isRateLimitMsg m2 = true)
    (hce : job.cancel_event = false) :
    waitTime 1 = 15 ∧ waitTime 2 = 45 ∧
    processItem f false t idx e job
      = ({ job with failed := job.failed + 1, message := rateBlockedMsg,
                    progress := progressValue job.total idx, updated_at := t },
         [Event.attempt idx 0, Event.sleep 15, Event.attempt idx 1,
          Event.sleep 45, Event.attempt idx 2]) ∧
    itemLoop f false none t (e :: rest) idx job
      = ((itemLoop f false none t rest (idx + 1)
            { job with failed := job.failed + 1, message := rateBlockedMsg,
                       progress := progressValue job.total idx,
                       updated_at := t }).1,
         Event.attempt idx 0 :: Event.sleep 15 :: Event.attempt idx 1 ::
           Event.sleep 45 :: Event.attempt idx 2 ::
             (itemLoop f false none t rest (idx + 1)
               { job with failed := job.failed + 1, message := rateBlockedMsg,
                          progress := progressValue job.total idx,
                          updated_at := t }).2.1,
         (itemLoop f false none t rest (idx + 1)
            { job with failed := job.failed + 1, message := rateBlockedMsg,
                       progress := progressValue job.total idx,
                       updated_at := t }).2.2) := by
  have hPI : processItem f false t idx e job
      = ({ job with failed := job.failed + 1, message := rateBlockedMsg,
                    progress := progressValue job.total idx, updated_at := t },
         [Event.attempt idx 0, Event.sleep 15, Event.attempt idx 1,
          Event.sleep 45, Event.attempt idx 2]) := by
    simp only [processItem, hurl, attemptLoop, max_retries, attemptLoopAux,
      backoffJob, backoffEvents, waitTime, retry_delay, hf0, hf1, hf2,
      hr0, hr1, hr2, interItemEvents]
    simp [Job.mk.injEq]
  refine ⟨rfl, rfl, hPI, ?_⟩
  simp only [itemLoop]
  rw [if_neg (fun hcon => Option.noConfusion hcon)]
  rw [if_neg (fun hcon => Bool.false_ne_true (hce.symm.trans hcon))]
  rw [hPI]
  rfl

/-- C2 amended claim exercised at a concrete input. -/
theorem C2_witness :
    waitTime 1 = 15 ∧ waitTime 2 = 45 ∧
    processItem (fun _ _ => FetchResult.failure rateMsgEx) false 0 1 entryOk
        jobTik
      = ({ jobTik with failed := jobTik.failed + 1, message := rateBlockedMsg,
                       progress := progressValue jobTik.total 1,
                       updated_at := 0 },
         [Event.attempt 1 0, Event.sleep 15, Event.attempt 1 1,
          Event.sleep 45, Event.attempt 1 2]) ∧
    itemLoop (fun _ _ => FetchResult.failure rateMsgEx) false none 0
        [entryOk] 1 jobTik
      = ((itemLoop (fun _ _ => FetchResult.failure rateMsgEx) false none 0
            [] 2
            { jobTik with failed := jobTik.failed + 1,
                          message := rateBlockedMsg,
                          progress := progressValue jobTik.total 1,
                          updated_at := 0 }).1,
         Event.attempt 1 0 :: Event.sleep 15 :: Event.attempt 1 1 ::
           Event.sleep 45 :: Event.attempt 1 2 ::
             (itemLoop (fun _ _ => FetchResult.failure rateMsgEx) false none 0
               [] 2
               { jobTik with failed := jobTik.failed + 1,
                             message := rateBlockedMsg,
                             progress := progressValue jobTik.total 1,
                             updated_at := 0 }).2.1,
         (itemLoop (fun _ _ => FetchResult.failure rateMsgEx) false none 0
            [] 2
            { jobTik with failed := jobTik.failed + 1,
                          message := rateBlockedMsg,
                          progress := progressValue jobTik.total 1,
                          updated_at := 0 }).2.2) :=
  C2_amended (fun _ _ => FetchResult.failure rateMsgEx) 0 1 jobTik entryOk
    [] vidUrl1 rateMsgEx rateMsgEx rateMsgEx rfl rfl (by decide) rfl
    (by decide) rfl (by decide) rfl

end TikTokDownloader
